import Mathlib

/-!
Verification of the muddery world-data editing and export core
(`muddery/worlddata/services/data_edit.py` and `muddery/utils/exporter.py`).

Records are association lists from field name to string value (Django model
rows seen through `serializable_value`); the database maps a table name to
its list of rows.  Repository components that the two source files call but
whose code is not part of the source tree (the DAO mappers, the typeclass
registry, the form set, the writer registry and the object-index counter)
are modelled from the specification; each such definition carries a
`Modelled from the spec:` note.
-/

set_option autoImplicit false

namespace Muddery

/-- A record: ordered field/value pairs, as Django exposes a row. -/
abbrev Values := List (String × String)

/-- A table is its list of rows. -/
abbrev Table := List Values

/-- The database: table name to row list. -/
abbrev DB := List (String × Table)

/-- Look up a field in a record (first binding wins). -/
def getv : Values → String → Option String
  | [], _ => none
  | (k, v) :: rest, f => if k = f then some v else getv rest f

/-- Set a field in a record: replace the first binding, or append. -/
def setv : Values → String → String → Values
  | [], f, x => [(f, x)]
  | (k, v) :: rest, f, x => if k = f then (k, x) :: rest else (k, v) :: setv rest f x

/-- Rows of a table; a table not present in the database reads as empty. -/
def getT : DB → String → Table
  | [], _ => []
  | (n, tbl) :: rest, t => if n = t then tbl else getT rest t

/-- Replace a table's rows (or add the table at the end). -/
def setT : DB → String → Table → DB
  | [], t, tbl => [(t, tbl)]
  | (n, old) :: rest, t, tbl => if n = t then (n, tbl) :: rest else (n, old) :: setT rest t tbl

theorem getv_setv_self (r : Values) (f x : String) : getv (setv r f x) f = some x := by
  induction r with
  | nil => simp [setv, getv]
  | cons p rest ih =>
    by_cases h : p.1 = f
    · simp [setv, getv, h]
    · simp [setv, getv, h, ih]

theorem getv_setv_ne (r : Values) (f g x : String) (h : g ≠ f) :
    getv (setv r f x) g = getv r g := by
  induction r with
  | nil => simp [setv, getv, Ne.symm h]
  | cons p rest ih =>
    obtain ⟨k, v⟩ := p
    by_cases hp : k = f
    · subst hp
      simp [setv, getv, Ne.symm h]
    · by_cases hg : k = g
      · subst hg
        simp [setv, getv, hp]
      · simp [setv, getv, hp, hg, ih]

theorem getT_setT_self (db : DB) (t : String) (tbl : Table) : getT (setT db t tbl) t = tbl := by
  induction db with
  | nil => simp [setT, getT]
  | cons p rest ih =>
    by_cases h : p.1 = t
    · simp [setT, getT, h]
    · simp [setT, getT, h, ih]

theorem getT_setT_ne (db : DB) (t u : String) (tbl : Table) (h : u ≠ t) :
    getT (setT db t tbl) u = getT db u := by
  induction db with
  | nil => simp [setT, getT, Ne.symm h]
  | cons p rest ih =>
    obtain ⟨k, v⟩ := p
    by_cases hp : k = t
    · subst hp
      simp [setT, getT, Ne.symm h]
    · by_cases hg : k = u
      · subst hg
        simp [setT, getT, hp]
      · simp [setT, getT, hp, hg, ih]

/-- Errors raised by the data-edit service: `MudderyError(code, msg, data)`
plus the Django ORM exceptions that `data_edit.py` catches or lets escape. -/
inductive Err where
  | muddery (code : String) (msg : String) (data : String)
  | objectDoesNotExist
  | multipleObjectsReturned
deriving DecidableEq, Repr

/-- One table-group submitted to `save_object_form`: the dict
`{"table": name, "values": {...}}`. -/
structure TableData where
  table : String
  values : Values
deriving DecidableEq, Repr

/-- A bound Django form: the target table, the submitted values and the
optional existing instance the form updates. -/
structure Form where
  table : String
  values : Values
  inst : Option Values
deriving DecidableEq, Repr

/-- Modelled from the spec: `general_query_mapper.get_record_by_key` (DAO code
not in the source tree).  The Record Store's `getByBusinessKey` "fails
`NotFound` if absent; fails `AmbiguousKey` if more than one row shares the
key"; the business-key column is named `key`. -/
def get_record_by_key (db : DB) (t key : String) : Except Err Values :=
  match (getT db t).filter (fun r => getv r "key" = some key) with
  | [] => .error .objectDoesNotExist
  | [r] => .ok r
  | _ => .error .multipleObjectsReturned

/-- Modelled from the spec: `SYSTEM_DATA.get_object_index` (DAO code not in
the source tree), "a monotonically increasing, process-wide object-index
counter": returns the current index and the incremented counter state. -/
def get_object_index (n : Nat) : Nat × Nat := (n, n + 1)

/-- A validator standing for Django's `form.is_valid()` (the form classes of
`FORM_SET` are not in the source tree): `none` means valid, `some errs`
carries the form's field errors. -/
abbrev Validator := Form → Option String

/-- A writer standing for Django's `form.save()` together with possible
database failure during the write phase: either the new database state or a
persistence error. -/
abbrev Writer := DB → Form → Except String DB

/-- Merge submitted values over an existing record, field by field. -/
def mergev (r : Values) (vals : Values) : Values :=
  vals.foldl (fun acc p => setv acc p.1 p.2) r

/-- Replace the first occurrence of a row in a table. -/
def replace_first : Table → Values → Values → Table
  | [], _, _ => []
  | r :: rest, old, new => if r = old then new :: rest else r :: replace_first rest old new

/-- Modelled from the spec: `form.save()` — update the bound instance's row
with the submitted values, or insert a fresh row. -/
def form_save (db : DB) (f : Form) : DB :=
  match f.inst with
  | some r => setT db f.table (replace_first (getT db f.table) r (mergev r f.values))
  | none => setT db f.table (getT db f.table ++ [f.values])

/-- The concrete writer with no persistence failures: every `form.save()`
succeeds. -/
def plain_writer : Writer := fun db f => .ok (form_save db f)

/-- A validator that accepts every form. -/
def accept_all : Validator := fun _ => none

/-- A validator that rejects every form with a fixed error text. -/
def reject_all : Validator := fun _ => some "field errors"

/-- The key taken from the first group's submitted values
(`tables[0]["values"]["key"]`, data_edit.py:202-205); a missing field is a
`KeyError` and falls back to `obj_key`. -/
def first_group_key (t0 : TableData) (obj_key : String) : String :=
  match getv t0.values "key" with
  | some k => k
  | none => obj_key

/-- Step 1 of `save_object_form` (data_edit.py:201-212): take the new key
from the first group's values (`KeyError` falls back to `obj_key`); if it is
falsy, draw an index from the counter, build `"%s_auto_%s"` and write the
synthesized key into every group's values.  Returns the effective key, the
(possibly rewritten) table groups and the new counter state. -/
def prep_tables (tables : List TableData) (obj_typeclass obj_key : String) (idx : Nat) :
    String × List TableData × Nat :=
  match tables with
  | [] => ("", [], idx)
  | t0 :: _ =>
    let new_key := first_group_key t0 obj_key
    if new_key = "" then
      let p := get_object_index idx
      let k := obj_typeclass ++ "_auto_" ++ toString p.1
      (k, tables.map (fun t => { t with values := setv t.values "key" k }), p.2)
    else
      (new_key, tables, idx)

/-- Form-building loop of `save_object_form` (data_edit.py:214-233): when
`obj_key` is truthy, look the current record up by key — `ObjectDoesNotExist`
is caught and yields an unbound form, any other lookup error propagates. -/
def build_forms (db : DB) (tables : List TableData) (obj_key : String) :
    Except Err (List Form) :=
  tables.mapM (fun t =>
    if obj_key ≠ "" then
      match get_record_by_key db t.table obj_key with
      | .ok r => .ok { table := t.table, values := t.values, inst := some r }
      | .error .objectDoesNotExist => .ok { table := t.table, values := t.values, inst := none }
      | .error e => .error e
    else
      .ok { table := t.table, values := t.values, inst := none })

/-- Validation loop of `save_object_form` (data_edit.py:236-238): the first
invalid form's errors, if any. -/
def firstInvalid (v : Validator) : List Form → Option String
  | [] => none
  | f :: rest =>
    match v f with
    | some errs => some errs
    | none => firstInvalid v rest

/-- Write phase run inside `transaction.atomic()` (data_edit.py:241-243). -/
def write_forms (w : Writer) : List Form → DB → Except String DB
  | [], db => .ok db
  | f :: rest, db =>
    match w db f with
    | .ok db2 => write_forms w rest db2
    | .error e => .error e

/-- Result of `save_object_form`: the returned key or the raised error, the
object-index counter state and the database state after the call. -/
structure SaveResult where
  res : Except Err String
  idx : Nat
  db : DB
deriving Repr

/-- Phases of `save_object_form` after key preparation
(data_edit.py:214-245): build all forms, validate them all (raising
`invalid_form` with the failing form's errors before anything is written),
then save them all inside one `transaction.atomic()` block, which rolls the
database back to its entry state if the write phase fails. -/
def save_phases (v : Validator) (w : Writer) (new_key : String)
    (tables2 : List TableData) (obj_key : String) (idx2 : Nat) (db : DB) : SaveResult :=
  match build_forms db tables2 obj_key with
  | .error e => ⟨.error e, idx2, db⟩
  | .ok forms =>
    match firstInvalid v forms with
    | some errs => ⟨.error (.muddery "invalid_form" "Invalid form." errs), idx2, db⟩
    | none =>
      match write_forms w forms db with
      | .ok db2 => ⟨.ok new_key, idx2, db2⟩
      | .error e => ⟨.error (.muddery "transaction" e ""), idx2, db⟩

/-- `save_object_form(tables, obj_typeclass, obj_key)` (data_edit.py:185-245).
An empty table list raises `invalid_form` with data `"Empty form."`; the
effective key is determined and propagated by `prep_tables`; the remaining
validate-then-write phases are `save_phases`. -/
def save_object_form (v : Validator) (w : Writer) (tables : List TableData)
    (obj_typeclass obj_key : String) (idx : Nat) (db : DB) : SaveResult :=
  match tables with
  | [] => ⟨.error (.muddery "invalid_form" "Invalid form." "Empty form."), idx, db⟩
  | t0 :: rest =>
    let p := prep_tables (t0 :: rest) obj_typeclass obj_key idx
    save_phases v w p.1 p.2.1 obj_key p.2.2 db

/-- C10: calling `save_object_form` with an empty list of table-groups raises
the invalid-form error with data "Empty form.", returns no key, leaves the
counter and the whole database untouched. -/
theorem save_object_form_empty_tables (v : Validator) (w : Writer)
    (obj_typeclass obj_key : String) (idx : Nat) (db : DB) :
    save_object_form v w [] obj_typeclass obj_key idx db =
      ⟨.error (.muddery "invalid_form" "Invalid form." "Empty form."), idx, db⟩ := rfl

theorem save_phases_eq_build_err (v : Validator) (w : Writer) (nk : String)
    (t2 : List TableData) (okey : String) (i2 : Nat) (db : DB) (e : Err)
    (h : build_forms db t2 okey = .error e) :
    save_phases v w nk t2 okey i2 db = ⟨.error e, i2, db⟩ := by
  simp only [save_phases, h]

theorem save_phases_eq_invalid (v : Validator) (w : Writer) (nk : String)
    (t2 : List TableData) (okey : String) (i2 : Nat) (db : DB)
    (forms : List Form) (errs : String)
    (h1 : build_forms db t2 okey = .ok forms)
    (h2 : firstInvalid v forms = some errs) :
    save_phases v w nk t2 okey i2 db =
      ⟨.error (.muddery "invalid_form" "Invalid form." errs), i2, db⟩ := by
  simp only [save_phases, h1, h2]

theorem save_phases_eq_write_ok (v : Validator) (w : Writer) (nk : String)
    (t2 : List TableData) (okey : String) (i2 : Nat) (db : DB)
    (forms : List Form) (db2 : DB)
    (h1 : build_forms db t2 okey = .ok forms)
    (h2 : firstInvalid v forms = none)
    (h3 : write_forms w forms db = .ok db2) :
    save_phases v w nk t2 okey i2 db = ⟨.ok nk, i2, db2⟩ := by
  simp only [save_phases, h1, h2, h3]

theorem save_phases_eq_write_err (v : Validator) (w : Writer) (nk : String)
    (t2 : List TableData) (okey : String) (i2 : Nat) (db : DB)
    (forms : List Form) (e : String)
    (h1 : build_forms db t2 okey = .ok forms)
    (h2 : firstInvalid v forms = none)
    (h3 : write_forms w forms db = .error e) :
    save_phases v w nk t2 okey i2 db =
      ⟨.error (.muddery "transaction" e ""), i2, db⟩ := by
  simp only [save_phases, h1, h2, h3]

theorem save_phases_idx (v : Validator) (w : Writer) (nk : String) (t2 : List TableData)
    (okey : String) (i2 : Nat) (db : DB) :
    (save_phases v w nk t2 okey i2 db).idx = i2 := by
  rcases hb : build_forms db t2 okey with e | forms
  · rw [save_phases_eq_build_err v w nk t2 okey i2 db e hb]
  · rcases hv : firstInvalid v forms with _ | errs
    · rcases hw : write_forms w forms db with e | db2
      · rw [save_phases_eq_write_err v w nk t2 okey i2 db forms e hb hv hw]
      · rw [save_phases_eq_write_ok v w nk t2 okey i2 db forms db2 hb hv hw]
    · rw [save_phases_eq_invalid v w nk t2 okey i2 db forms errs hb hv]

theorem save_phases_res_ok (v : Validator) (w : Writer) (nk : String) (t2 : List TableData)
    (okey : String) (i2 : Nat) (db : DB) (s : String)
    (h : (save_phases v w nk t2 okey i2 db).res = .ok s) : s = nk := by
  rcases hb : build_forms db t2 okey with e | forms
  · rw [save_phases_eq_build_err v w nk t2 okey i2 db e hb] at h
    exact Except.noConfusion h
  · rcases hv : firstInvalid v forms with _ | errs
    · rcases hw : write_forms w forms db with e | db2
      · rw [save_phases_eq_write_err v w nk t2 okey i2 db forms e hb hv hw] at h
        exact Except.noConfusion h
      · rw [save_phases_eq_write_ok v w nk t2 okey i2 db forms db2 hb hv hw] at h
        exact (Except.ok.inj h).symm
    · rw [save_phases_eq_invalid v w nk t2 okey i2 db forms errs hb hv] at h
      exact Except.noConfusion h

theorem save_phases_spec (v : Validator) (w : Writer) (nk : String) (t2 : List TableData)
    (okey : String) (i2 : Nat) (db : DB) :
    (∀ e, (save_phases v w nk t2 okey i2 db).res = .error e →
        (save_phases v w nk t2 okey i2 db).db = db) ∧
    (∀ forms errs, build_forms db t2 okey = .ok forms →
        firstInvalid v forms = some errs →
        (save_phases v w nk t2 okey i2 db).res =
          .error (.muddery "invalid_form" "Invalid form." errs)) ∧
    (∀ s, (save_phases v w nk t2 okey i2 db).res = .ok s →
        ∃ forms, build_forms db t2 okey = .ok forms ∧
          firstInvalid v forms = none ∧
          write_forms w forms db = .ok (save_phases v w nk t2 okey i2 db).db) := by
  rcases hb : build_forms db t2 okey with e | forms
  · rw [save_phases_eq_build_err v w nk t2 okey i2 db e hb]
    exact ⟨fun _ _ => rfl, fun forms errs hf _ => Except.noConfusion hf,
      fun s hs => Except.noConfusion hs⟩
  · rcases hv : firstInvalid v forms with _ | errs
    · rcases hw : write_forms w forms db with e | db2
      · rw [save_phases_eq_write_err v w nk t2 okey i2 db forms e hb hv hw]
        refine ⟨fun _ _ => rfl, fun forms2 errs2 hf hfi => ?_,
          fun s hs => Except.noConfusion hs⟩
        have h2 : forms = forms2 := Except.ok.inj hf
        subst h2
        rw [hv] at hfi
        exact Option.noConfusion hfi
      · rw [save_phases_eq_write_ok v w nk t2 okey i2 db forms db2 hb hv hw]
        refine ⟨fun e he => Except.noConfusion he, fun forms2 errs2 hf hfi => ?_,
          fun s _ => ⟨forms, rfl, hv, hw⟩⟩
        have h2 : forms = forms2 := Except.ok.inj hf
        subst h2
        rw [hv] at hfi
        exact Option.noConfusion hfi
    · rw [save_phases_eq_invalid v w nk t2 okey i2 db forms errs hb hv]
      refine ⟨fun _ _ => rfl, fun forms2 errs2 hf hfi => ?_,
        fun s hs => Except.noConfusion hs⟩
      have h2 : forms = forms2 := Except.ok.inj hf
      subst h2
      rw [hv] at hfi
      rw [Option.some.inj hfi]

/-- C1: in `save_object_form`, all table-groups are validated before any is
written — whenever the call raises (validation failure, lookup failure or a
write-phase failure inside `transaction.atomic()`), the database is exactly
its entry state; a validation failure raises the invalid-form error carrying
the first failing form's field errors; and a successful call means every
form validated and the final database is the write of every table-group's
form, as one unit. -/
theorem save_object_form_validates_before_atomic_write
    (v : Validator) (w : Writer) (ts : List TableData)
    (tc okey : String) (i : Nat) (db : DB) :
    (∀ e, (save_object_form v w ts tc okey i db).res = .error e →
        (save_object_form v w ts tc okey i db).db = db) ∧
    (∀ forms errs, ts ≠ [] →
        build_forms db (prep_tables ts tc okey i).2.1 okey = .ok forms →
        firstInvalid v forms = some errs →
        (save_object_form v w ts tc okey i db).res =
          .error (.muddery "invalid_form" "Invalid form." errs)) ∧
    (∀ s, (save_object_form v w ts tc okey i db).res = .ok s →
        ∃ forms, build_forms db (prep_tables ts tc okey i).2.1 okey = .ok forms ∧
          firstInvalid v forms = none ∧
          write_forms w forms db = .ok (save_object_form v w ts tc okey i db).db) := by
  cases ts with
  | nil =>
    exact ⟨fun e _ => rfl, fun forms errs hne _ _ => absurd rfl hne,
      fun s hs => Except.noConfusion hs⟩
  | cons t0 rest =>
    have hsp := save_phases_spec v w (prep_tables (t0 :: rest) tc okey i).1
      (prep_tables (t0 :: rest) tc okey i).2.1 okey
      (prep_tables (t0 :: rest) tc okey i).2.2 db
    exact ⟨hsp.1, fun forms errs _ => hsp.2.1 forms errs, hsp.2.2⟩

/-- Witness for C1 at a concrete input: a one-group save whose form fails
validation raises the invalid-form error carrying the field errors. -/
theorem save_object_form_validates_before_atomic_write_witness :
    ([(⟨"objects", [("key", "k1")]⟩ : TableData)] ≠ []) ∧
    build_forms [] (prep_tables [⟨"objects", [("key", "k1")]⟩] "WORLD_OBJECT" "" 0).2.1 "" =
      .ok [⟨"objects", [("key", "k1")], none⟩] ∧
    firstInvalid reject_all [⟨"objects", [("key", "k1")], none⟩] = some "field errors" ∧
    (save_object_form reject_all plain_writer [⟨"objects", [("key", "k1")]⟩]
        "WORLD_OBJECT" "" 0 []).res =
      .error (.muddery "invalid_form" "Invalid form." "field errors") :=
  ⟨List.cons_ne_nil _ _, rfl, rfl,
    (save_object_form_validates_before_atomic_write reject_all plain_writer
        [⟨"objects", [("key", "k1")]⟩] "WORLD_OBJECT" "" 0 []).2.1
      [⟨"objects", [("key", "k1")], none⟩] "field errors"
      (List.cons_ne_nil _ _) rfl rfl⟩

/-- C2 counterexample: with a non-empty existing business key
(`obj_key = "old_npc"`) but an empty `key` field in the first group's values,
`save_object_form` still synthesizes an auto key — it returns
`"NPC_auto_7"` and consumes the counter — contradicting the claim that no
key is synthesized when the existing business key is non-empty. -/
theorem save_object_form_synthesizes_despite_existing_key_cex :
    ("old_npc" : String) ≠ "" ∧
    (save_object_form accept_all plain_writer [⟨"objects", [("key", "")]⟩]
        "NPC" "old_npc" 7 []).res = .ok "NPC_auto_7" ∧
    (save_object_form accept_all plain_writer [⟨"objects", [("key", "")]⟩]
        "NPC" "old_npc" 7 []).idx = 8 :=
  ⟨by decide, rfl, rfl⟩

/-- C2 (amended): a key is synthesized exactly when the effective initial
key — the first group's `key` value if present, else `obj_key` — is empty;
the synthesized key is `{obj_typeclass}_auto_{index}`, it is written into
every table-group's values, the counter advances by one (so indices strictly
increase across sequential calls), and a successful save returns it.  When
the effective initial key is non-empty no key is synthesized, the groups are
left as submitted and the counter does not move. -/
theorem save_object_form_key_synthesis (v : Validator) (w : Writer)
    (t0 : TableData) (rest : List TableData) (tc okey : String) (i : Nat) (db : DB) :
    (first_group_key t0 okey = "" →
      prep_tables (t0 :: rest) tc okey i =
        (tc ++ "_auto_" ++ toString i,
         (t0 :: rest).map
           (fun t => { t with values := setv t.values "key" (tc ++ "_auto_" ++ toString i) }),
         i + 1) ∧
      (save_object_form v w (t0 :: rest) tc okey i db).idx = i + 1 ∧
      ∀ s, (save_object_form v w (t0 :: rest) tc okey i db).res = .ok s →
        s = tc ++ "_auto_" ++ toString i) ∧
    (first_group_key t0 okey ≠ "" →
      prep_tables (t0 :: rest) tc okey i = (first_group_key t0 okey, t0 :: rest, i) ∧
      (save_object_form v w (t0 :: rest) tc okey i db).idx = i ∧
      ∀ s, (save_object_form v w (t0 :: rest) tc okey i db).res = .ok s →
        s = first_group_key t0 okey) := by
  constructor
  · intro h
    have hp : prep_tables (t0 :: rest) tc okey i =
        (tc ++ "_auto_" ++ toString i,
         (t0 :: rest).map
           (fun t => { t with values := setv t.values "key" (tc ++ "_auto_" ++ toString i) }),
         i + 1) := by
      simp only [prep_tables]
      rw [if_pos h]
      rfl
    refine ⟨hp, ?_, ?_⟩
    · have h1 := save_phases_idx v w (prep_tables (t0 :: rest) tc okey i).1
        (prep_tables (t0 :: rest) tc okey i).2.1 okey
        (prep_tables (t0 :: rest) tc okey i).2.2 db
      calc (save_object_form v w (t0 :: rest) tc okey i db).idx
          = (prep_tables (t0 :: rest) tc okey i).2.2 := h1
        _ = i + 1 := by rw [hp]
    · intro s hs
      have h2 := save_phases_res_ok v w (prep_tables (t0 :: rest) tc okey i).1
        (prep_tables (t0 :: rest) tc okey i).2.1 okey
        (prep_tables (t0 :: rest) tc okey i).2.2 db s hs
      rw [h2, hp]
  · intro h
    have hp : prep_tables (t0 :: rest) tc okey i =
        (first_group_key t0 okey, t0 :: rest, i) := by
      simp only [prep_tables]
      rw [if_neg h]
    refine ⟨hp, ?_, ?_⟩
    · have h1 := save_phases_idx v w (prep_tables (t0 :: rest) tc okey i).1
        (prep_tables (t0 :: rest) tc okey i).2.1 okey
        (prep_tables (t0 :: rest) tc okey i).2.2 db
      calc (save_object_form v w (t0 :: rest) tc okey i db).idx
          = (prep_tables (t0 :: rest) tc okey i).2.2 := h1
        _ = i := by rw [hp]
    · intro s hs
      have h2 := save_phases_res_ok v w (prep_tables (t0 :: rest) tc okey i).1
        (prep_tables (t0 :: rest) tc okey i).2.1 okey
        (prep_tables (t0 :: rest) tc okey i).2.2 db s hs
      rw [h2, hp]

/-- Witness for C2 at a concrete input: a fresh save with no supplied key
synthesizes `WORLD_OBJECT_auto_0`, writes it into the group's values and
advances the counter to 1. -/
theorem save_object_form_key_synthesis_witness :
    prep_tables [⟨"objects", [("name", "Lamp")]⟩] "WORLD_OBJECT" "" 0 =
      ("WORLD_OBJECT_auto_0",
       [⟨"objects", [("name", "Lamp"), ("key", "WORLD_OBJECT_auto_0")]⟩], 1) ∧
    (save_object_form accept_all plain_writer [⟨"objects", [("name", "Lamp")]⟩]
        "WORLD_OBJECT" "" 0 []).idx = 1 ∧
    ∀ s, (save_object_form accept_all plain_writer [⟨"objects", [("name", "Lamp")]⟩]
        "WORLD_OBJECT" "" 0 []).res = .ok s → s = "WORLD_OBJECT_auto_0" :=
  (save_object_form_key_synthesis accept_all plain_writer
      ⟨"objects", [("name", "Lamp")]⟩ [] "WORLD_OBJECT" "" 0 []).1 rfl

/-- Modelled from the spec: the typeclass registry (`TYPECLASS` and
`TYPECLASS_SET`, code not in the source tree).  `isSub a b` stands for
`issubclass(TYPECLASS(a), TYPECLASS(b))`; `modelName x` stands for
`TYPECLASS(x).model_name`, with the empty string standing for a falsy
model name. -/
structure TypeclassSys where
  isSub : String → String → Bool
  modelName : String → String

/-- One step of the cascade,
`filter_records(model, field=old).update(field=new)`: rewrite the field to
`new` in every row where it currently equals `old`. -/
def rowUpd (f old new : String) (r : Values) : Values :=
  if getv r f = some old then setv r f new else r

/-- Apply `rowUpd` across one table of the database. -/
def filter_update (db : DB) (m f old new : String) : DB :=
  setT db m ((getT db m).map (rowUpd f old new))

/-- `update_object_key(typeclass_key, old_key, new_key)`
(data_edit.py:329-360): an is-a AREA typeclass rewrites room locations; an
is-a ROOM typeclass rewrites exit locations and destinations and
world-object and world-NPC locations; other typeclasses cascade nothing. -/
def update_object_key (T : TypeclassSys) (tk old new : String) (db : DB) : DB :=
  if T.isSub tk "AREA" then
    if T.modelName "ROOM" ≠ "" then
      filter_update db (T.modelName "ROOM") "location" old new
    else db
  else if T.isSub tk "ROOM" then
    let db1 :=
      if T.modelName "EXIT" ≠ "" then
        filter_update (filter_update db (T.modelName "EXIT") "location" old new)
          (T.modelName "EXIT") "destination" old new
      else db
    let db2 :=
      if T.modelName "WORLD_OBJECT" ≠ "" then
        filter_update db1 (T.modelName "WORLD_OBJECT") "location" old new
      else db1
    if T.modelName "WORLD_NPC" ≠ "" then
      filter_update db2 (T.modelName "WORLD_NPC") "location" old new
    else db2
  else db

/-- Modelled from the spec: the concrete hierarchy the cascade relies on —
AREA, ROOM, EXIT, WORLD_OBJECT and WORLD_NPC are distinct branches directly
under the root OBJECT, each stored in its own table. -/
def mudTypes : TypeclassSys where
  isSub := fun a b => a == b || b == "OBJECT"
  modelName := fun x =>
    if x = "AREA" then "world_areas"
    else if x = "ROOM" then "world_rooms"
    else if x = "EXIT" then "world_exits"
    else if x = "WORLD_OBJECT" then "world_objects"
    else if x = "WORLD_NPC" then "world_npcs"
    else if x = "OBJECT" then "objects"
    else ""

/-- Effect of the cascade on one reference value: `old` becomes `new`,
anything else is untouched. -/
def keyRename (old new : String) : Option String → Option String
  | some v => if v = old then some new else some v
  | none => none

/-- Row `rNew` is row `r` with exactly the fields in `fs` renamed by the
cascade and every other field untouched. -/
def renameRel (fs : List String) (old new : String) (r rNew : Values) : Prop :=
  (∀ f ∈ fs, getv rNew f = keyRename old new (getv r f)) ∧
  (∀ g, g ∉ fs → getv rNew g = getv r g)

theorem getv_rowUpd_self (f old new : String) (r : Values) :
    getv (rowUpd f old new r) f = keyRename old new (getv r f) := by
  unfold rowUpd
  by_cases h : getv r f = some old
  · rw [if_pos h, h, getv_setv_self]
    simp [keyRename]
  · rw [if_neg h]
    cases hg : getv r f with
    | none => rfl
    | some v =>
      have hv : v ≠ old := fun hv => h (by rw [hg, hv])
      simp [keyRename, hv]

theorem getv_rowUpd_ne (f g old new : String) (r : Values) (h : g ≠ f) :
    getv (rowUpd f old new r) g = getv r g := by
  unfold rowUpd
  by_cases hc : getv r f = some old
  · rw [if_pos hc]
    exact getv_setv_ne r f g new h
  · rw [if_neg hc]

theorem forallTwo_map_pointwise {α : Type} (R : α → α → Prop) (g : α → α)
    (l : List α) (h : ∀ a, R a (g a)) : List.Forall₂ R l (l.map g) := by
  induction l with
  | nil => exact List.Forall₂.nil
  | cons a rest ih => exact List.Forall₂.cons (h a) ih

theorem getT_filter_update_self (db : DB) (m f old new : String) :
    getT (filter_update db m f old new) m = (getT db m).map (rowUpd f old new) :=
  getT_setT_self db m _

theorem getT_filter_update_ne (db : DB) (m f old new t : String) (h : t ≠ m) :
    getT (filter_update db m f old new) t = getT db t :=
  getT_setT_ne db m t _ h

theorem rowUpd_renameRel_single (f old new : String) (r : Values) :
    renameRel [f] old new r (rowUpd f old new r) := by
  constructor
  · intro f2 hf2
    rw [List.mem_singleton] at hf2
    subst hf2
    exact getv_rowUpd_self f2 old new r
  · intro g hg
    rw [List.mem_singleton] at hg
    exact getv_rowUpd_ne f g old new r hg

theorem rowUpd_renameRel_pair (old new : String) (r : Values) :
    renameRel ["location", "destination"] old new r
      (rowUpd "destination" old new (rowUpd "location" old new r)) := by
  constructor
  · intro f hf
    simp only [List.mem_cons, List.mem_singleton] at hf
    rcases hf with rfl | hf
    · rw [getv_rowUpd_ne "destination" "location" old new _ (by decide)]
      exact getv_rowUpd_self "location" old new r
    · rcases hf with rfl | hf
      · rw [getv_rowUpd_self "destination" old new _,
          getv_rowUpd_ne "location" "destination" old new r (by decide)]
      · exact absurd hf (List.not_mem_nil f)
  · intro g hg
    simp only [List.mem_cons, List.mem_singleton, not_or] at hg
    rw [getv_rowUpd_ne "destination" g old new _ hg.2.1,
      getv_rowUpd_ne "location" g old new r hg.1]

/-- C8: for a typeclass that is-a AREA, `update_object_key` rewrites, in the
room table, the location of every room whose location equals `old` to `new`
and leaves every other field of every room — and every room with another
location — untouched. -/
theorem update_object_key_area_cascade (T : TypeclassSys) (tk old new : String) (db : DB)
    (harea : T.isSub tk "AREA" = true) (hm : T.modelName "ROOM" ≠ "") :
    List.Forall₂ (renameRel ["location"] old new)
      (getT db (T.modelName "ROOM"))
      (getT (update_object_key T tk old new db) (T.modelName "ROOM")) := by
  unfold update_object_key
  rw [if_pos harea, if_pos hm, getT_filter_update_self]
  exact forallTwo_map_pointwise _ _ _ (rowUpd_renameRel_single "location" old new)

/-- Witness for C8 at a concrete input: renaming area `a1` to `a2` with the
concrete hierarchy rewrites the room table as the cascade relation states. -/
theorem update_object_key_area_cascade_witness :
    mudTypes.isSub "AREA" "AREA" = true ∧
    mudTypes.modelName "ROOM" ≠ "" ∧
    List.Forall₂ (renameRel ["location"] "a1" "a2")
      (getT [("world_rooms", [[("key", "r1"), ("location", "a1")]])]
        (mudTypes.modelName "ROOM"))
      (getT (update_object_key mudTypes "AREA" "a1" "a2"
          [("world_rooms", [[("key", "r1"), ("location", "a1")]])])
        (mudTypes.modelName "ROOM")) :=
  ⟨rfl, by decide,
    update_object_key_area_cascade mudTypes "AREA" "a1" "a2"
      [("world_rooms", [[("key", "r1"), ("location", "a1")]])] rfl (by decide)⟩

/-- C3: for a typeclass that is-a ROOM (and not an AREA — the branch order
of the source), `update_object_key` rewrites, in the exit table, every
location and destination equal to `old` to `new`; in the world-object table
and the NPC table, every location equal to `old` to `new`; and it touches no
other field of those rows and no other table at all. -/
theorem update_object_key_room_cascade (T : TypeclassSys) (tk old new : String) (db : DB)
    (hroom : T.isSub tk "ROOM" = true) (harea : T.isSub tk "AREA" = false)
    (hmE : T.modelName "EXIT" ≠ "") (hmW : T.modelName "WORLD_OBJECT" ≠ "")
    (hmN : T.modelName "WORLD_NPC" ≠ "")
    (hEW : T.modelName "EXIT" ≠ T.modelName "WORLD_OBJECT")
    (hEN : T.modelName "EXIT" ≠ T.modelName "WORLD_NPC")
    (hWN : T.modelName "WORLD_OBJECT" ≠ T.modelName "WORLD_NPC") :
    List.Forall₂ (renameRel ["location", "destination"] old new)
      (getT db (T.modelName "EXIT"))
      (getT (update_object_key T tk old new db) (T.modelName "EXIT")) ∧
    List.Forall₂ (renameRel ["location"] old new)
      (getT db (T.modelName "WORLD_OBJECT"))
      (getT (update_object_key T tk old new db) (T.modelName "WORLD_OBJECT")) ∧
    List.Forall₂ (renameRel ["location"] old new)
      (getT db (T.modelName "WORLD_NPC"))
      (getT (update_object_key T tk old new db) (T.modelName "WORLD_NPC")) ∧
    ∀ t, t ≠ T.modelName "EXIT" → t ≠ T.modelName "WORLD_OBJECT" →
      t ≠ T.modelName "WORLD_NPC" →
      getT (update_object_key T tk old new db) t = getT db t := by
  have heq : update_object_key T tk old new db =
      filter_update (filter_update
        (filter_update (filter_update db (T.modelName "EXIT") "location" old new)
          (T.modelName "EXIT") "destination" old new)
        (T.modelName "WORLD_OBJECT") "location" old new)
        (T.modelName "WORLD_NPC") "location" old new := by
    unfold update_object_key
    rw [if_neg (by simp [harea]), if_pos hroom, if_pos hmE]
    simp only [if_pos hmW, if_pos hmN]
  rw [heq]
  refine ⟨?_, ?_, ?_, ?_⟩
  · rw [getT_filter_update_ne _ _ _ _ _ _ hEN, getT_filter_update_ne _ _ _ _ _ _ hEW,
      getT_filter_update_self, getT_filter_update_self, List.map_map]
    exact forallTwo_map_pointwise _ _ _ (rowUpd_renameRel_pair old new)
  · rw [getT_filter_update_ne _ _ _ _ _ _ hWN, getT_filter_update_self,
      getT_filter_update_ne _ _ _ _ _ _ (Ne.symm hEW),
      getT_filter_update_ne _ _ _ _ _ _ (Ne.symm hEW)]
    exact forallTwo_map_pointwise _ _ _ (rowUpd_renameRel_single "location" old new)
  · rw [getT_filter_update_self, getT_filter_update_ne _ _ _ _ _ _ (Ne.symm hWN),
      getT_filter_update_ne _ _ _ _ _ _ (Ne.symm hEN),
      getT_filter_update_ne _ _ _ _ _ _ (Ne.symm hEN)]
    exact forallTwo_map_pointwise _ _ _ (rowUpd_renameRel_single "location" old new)
  · intro t h1 h2 h3
    rw [getT_filter_update_ne _ _ _ _ _ _ h3, getT_filter_update_ne _ _ _ _ _ _ h2,
      getT_filter_update_ne _ _ _ _ _ _ h1, getT_filter_update_ne _ _ _ _ _ _ h1]

/-- A small concrete world used as the cascade witness. -/
def cascadeDB : DB :=
  [("world_exits", [[("key", "e1"), ("location", "r1"), ("destination", "r9")]]),
   ("world_objects", [[("key", "o1"), ("location", "r1")]]),
   ("world_npcs", [[("key", "n1"), ("location", "r2")]]),
   ("world_rooms", [[("key", "r1"), ("location", "a1")]])]

/-- Witness for C3 at a concrete input: renaming room `r1` to `r2` with the
concrete hierarchy rewrites exits, world objects and NPCs as stated and
leaves every other table alone. -/
theorem update_object_key_room_cascade_witness :
    mudTypes.isSub "ROOM" "ROOM" = true ∧
    mudTypes.isSub "ROOM" "AREA" = false ∧
    (List.Forall₂ (renameRel ["location", "destination"] "r1" "r2")
      (getT cascadeDB (mudTypes.modelName "EXIT"))
      (getT (update_object_key mudTypes "ROOM" "r1" "r2" cascadeDB)
        (mudTypes.modelName "EXIT")) ∧
     List.Forall₂ (renameRel ["location"] "r1" "r2")
      (getT cascadeDB (mudTypes.modelName "WORLD_OBJECT"))
      (getT (update_object_key mudTypes "ROOM" "r1" "r2" cascadeDB)
        (mudTypes.modelName "WORLD_OBJECT")) ∧
     List.Forall₂ (renameRel ["location"] "r1" "r2")
      (getT cascadeDB (mudTypes.modelName "WORLD_NPC"))
      (getT (update_object_key mudTypes "ROOM" "r1" "r2" cascadeDB)
        (mudTypes.modelName "WORLD_NPC")) ∧
     ∀ t, t ≠ mudTypes.modelName "EXIT" → t ≠ mudTypes.modelName "WORLD_OBJECT" →
       t ≠ mudTypes.modelName "WORLD_NPC" →
       getT (update_object_key mudTypes "ROOM" "r1" "r2" cascadeDB) t =
         getT cascadeDB t) :=
  ⟨rfl, rfl,
    update_object_key_room_cascade mudTypes "ROOM" "r1" "r2" cascadeDB rfl rfl
      (by decide) (by decide) (by decide) (by decide) (by decide) (by decide)⟩

/-- Does the record carry the business key `k`? -/
def has_key (r : Values) (k : String) : Bool :=
  match getv r "key" with
  | some v => v == k
  | none => false

/-- Modelled from the spec: `general_query_mapper.delete_record_by_key` (DAO
code not in the source tree).  Its use under `except ObjectDoesNotExist` in
`delete_object` shows it raises when no record carries the key; otherwise
the rows with the business key are removed from the table. -/
def delete_record_by_key (db : DB) (t key : String) : Except Err DB :=
  if (getT db t).any (fun r => has_key r key) then
    .ok (setT db t ((getT db t).filter (fun r => ! has_key r key)))
  else .error .objectDoesNotExist

/-- One iteration of the delete loop (data_edit.py:293-297): the per-table
`ObjectDoesNotExist` is swallowed and the loop moves on. -/
def delete_step (db : DB) (t okey : String) : DB :=
  match delete_record_by_key db t okey with
  | .ok db2 => db2
  | .error _ => db

/-- Accumulate one table name into the table set (data_edit.py:288-290); the
Python `set` is modelled as a duplicate-free list in first-insertion
order. -/
def add_model (acc : List String) (m : String) : List String :=
  if m ∈ acc then acc else acc ++ [m]

/-- The union of every candidate typeclass's `get_models()` lists. -/
def union_models (groups : List (String × List String)) : List String :=
  groups.foldl (fun acc kv => kv.2.foldl add_model acc) []

/-- `delete_object(obj_key, base_typeclass)` (data_edit.py:278-297) with the
base typeclass supplied by the caller: `groups` stands for
`TYPECLASS_SET.get_group(base_typeclass)` as an association of typeclass key
to its `get_models()` list (registry code not in the source tree, modelled
from the spec); the business-key row is deleted from every table in the
union inside one transaction, absence tolerated per table. -/
def delete_object (groups : List (String × List String)) (obj_key : String) (db : DB) : DB :=
  (union_models groups).foldl (fun d t => delete_step d t obj_key) db

theorem getT_delete_step_self (db : DB) (t okey : String) :
    getT (delete_step db t okey) t = (getT db t).filter (fun r => ! has_key r okey) := by
  unfold delete_step delete_record_by_key
  by_cases h : (getT db t).any (fun r => has_key r okey) = true
  · rw [if_pos h]
    exact getT_setT_self db t _
  · rw [if_neg h]
    have h2 : (getT db t).any (fun r => has_key r okey) = false := by
      cases ha : (getT db t).any (fun r => has_key r okey)
      · rfl
      · exact absurd ha h
    have h3 := List.any_eq_false.mp h2
    symm
    rw [List.filter_eq_self]
    intro a ha
    cases hk : has_key a okey with
    | false => rfl
    | true => exact absurd hk (h3 a ha)

theorem getT_delete_step_ne (db : DB) (t okey u : String) (h : u ≠ t) :
    getT (delete_step db t okey) u = getT db u := by
  unfold delete_step delete_record_by_key
  by_cases hc : (getT db t).any (fun r => has_key r okey) = true
  · rw [if_pos hc]
    exact getT_setT_ne db t u _ h
  · rw [if_neg hc]

theorem add_model_nodup (acc : List String) (m : String) (h : acc.Nodup) :
    (add_model acc m).Nodup := by
  unfold add_model
  by_cases hm : m ∈ acc
  · rw [if_pos hm]
    exact h
  · rw [if_neg hm]
    refine List.Nodup.append h (List.nodup_singleton m) ?_
    intro a ha hmem
    exact hm ((List.mem_singleton.mp hmem) ▸ ha)

theorem foldl_add_model_nodup (ms : List String) (acc : List String) (h : acc.Nodup) :
    (ms.foldl add_model acc).Nodup := by
  induction ms generalizing acc with
  | nil => exact h
  | cons m rest ih => exact ih _ (add_model_nodup acc m h)

theorem union_models_nodup (groups : List (String × List String)) :
    (union_models groups).Nodup := by
  unfold union_models
  have h : ∀ acc : List String, acc.Nodup →
      (groups.foldl (fun acc kv => kv.2.foldl add_model acc) acc).Nodup := by
    induction groups with
    | nil => intro acc h; exact h
    | cons g rest ih => intro acc h; exact ih _ (foldl_add_model_nodup g.2 acc h)
  exact h [] List.nodup_nil

theorem delete_fold_getT (ms : List String) (okey : String) :
    ∀ (db : DB) (t : String), ms.Nodup →
      ((t ∈ ms → getT (ms.foldl (fun d u => delete_step d u okey) db) t =
          (getT db t).filter (fun r => ! has_key r okey)) ∧
       (t ∉ ms → getT (ms.foldl (fun d u => delete_step d u okey) db) t = getT db t)) := by
  induction ms with
  | nil =>
    intro db t _
    exact ⟨fun h => absurd h (List.not_mem_nil t), fun _ => rfl⟩
  | cons m rest ih =>
    intro db t hnd
    obtain ⟨hm_nin, hrest⟩ := List.nodup_cons.mp hnd
    constructor
    · intro ht
      rcases List.mem_cons.mp ht with rfl | ht2
      · have h2 := (ih (delete_step db t okey) t hrest).2 hm_nin
        rw [List.foldl_cons, h2, getT_delete_step_self]
      · have hne : t ≠ m := fun he => hm_nin (he ▸ ht2)
        have h2 := (ih (delete_step db m okey) t hrest).1 ht2
        rw [List.foldl_cons, h2, getT_delete_step_ne db m okey t hne]
    · intro ht
      have htm : t ≠ m := fun he => ht (he ▸ List.mem_cons_self m rest)
      have htr : t ∉ rest := fun h2 => ht (List.mem_cons_of_mem m h2)
      have h2 := (ih (delete_step db m okey) t hrest).2 htr
      rw [List.foldl_cons, h2, getT_delete_step_ne db m okey t htm]

/-- C4: `delete_object` acts on exactly the union of the table lists of
every typeclass in the candidate group: in every union table all rows
carrying the business key are removed (a table where the key is already
absent is left unchanged — the per-table `NotFound` is swallowed, never
raised to the caller), and every table outside the union is untouched in
every row and field. -/
theorem delete_object_union_tables (groups : List (String × List String))
    (okey : String) (db : DB) :
    (∀ t, t ∈ union_models groups →
      getT (delete_object groups okey db) t =
        (getT db t).filter (fun r => ! has_key r okey)) ∧
    (∀ t, t ∉ union_models groups →
      getT (delete_object groups okey db) t = getT db t) :=
  ⟨fun t ht =>
    (delete_fold_getT (union_models groups) okey db t (union_models_nodup groups)).1 ht,
   fun t ht =>
    (delete_fold_getT (union_models groups) okey db t (union_models_nodup groups)).2 ht⟩

/-- Candidate group for the delete witness: two subtypes sharing the root
table, one contributing a residual table from a previously-assigned
subtype. -/
def delGroups : List (String × List String) :=
  [("WORLD_OBJECT", ["objects", "world_objects"]),
   ("COMMON_OBJECT", ["objects", "common_objects"])]

/-- Database for the delete witness: the key is present in `objects` and in
the residual `common_objects`, absent from `world_objects`, and an unrelated
table holds other data. -/
def delDB : DB :=
  [("objects", [[("key", "obj_1"), ("name", "Lamp")]]),
   ("world_objects", []),
   ("common_objects", [[("key", "obj_1"), ("max_stack", "2")]]),
   ("world_rooms", [[("key", "r1")]])]

/-- Witness for C4 at a concrete input: the residual subtype table is in the
union and purged, deleting from the empty `world_objects` table is
tolerated, and the unrelated room table is untouched. -/
theorem delete_object_union_tables_witness :
    ("common_objects" ∈ union_models delGroups) ∧
    getT (delete_object delGroups "obj_1" delDB) "common_objects" =
      (getT delDB "common_objects").filter (fun r => ! has_key r "obj_1") ∧
    ("world_objects" ∈ union_models delGroups) ∧
    getT (delete_object delGroups "obj_1" delDB) "world_objects" =
      (getT delDB "world_objects").filter (fun r => ! has_key r "obj_1") ∧
    ("world_rooms" ∉ union_models delGroups) ∧
    getT (delete_object delGroups "obj_1" delDB) "world_rooms" = getT delDB "world_rooms" :=
  ⟨by decide,
   (delete_object_union_tables delGroups "obj_1" delDB).1 "common_objects" (by decide),
   by decide,
   (delete_object_union_tables delGroups "obj_1" delDB).1 "world_objects" (by decide),
   by decide,
   (delete_object_union_tables delGroups "obj_1" delDB).2 "world_rooms" (by decide)⟩

/-- Does the record satisfy every field-equality condition? -/
def matchesAll (r : Values) (kw : List (String × String)) : Bool :=
  kw.all (fun p => getv r p.1 == some p.2)

/-- Modelled from the spec: `general_query_mapper.get_record` (DAO code not
in the source tree) — single-record fetch by field-equality conditions;
no match raises `NotFound`, more than one raises the ambiguity error. -/
def get_record (db : DB) (t : String) (kw : List (String × String)) : Except Err Values :=
  match (getT db t).filter (fun r => matchesAll r kw) with
  | [] => .error .objectDoesNotExist
  | [r] => .ok r
  | _ => .error .multipleObjectsReturned

/-- A rendered form field as `query_form` returns it: the field name and its
value string — present only when a record was found; the synthetic id field
always carries a value, empty when there is no record. -/
structure FieldInfo where
  name : String
  value : Option String
deriving DecidableEq, Repr

/-- Modelled from the spec: the part of `FORM_SET` (code not in the source
tree) that `query_form` consumes — which tables have forms and the field
names of each form. -/
def FORM_SET_columns : String → Option (List String) := fun t =>
  if t = "world_rooms" then some ["key", "name", "location"]
  else if t = "world_areas" then some ["key", "name"]
  else if t = "objects" then some ["key", "name", "typeclass"]
  else none

/-- `query_form(table_name, kwargs)` (data_edit.py:23-82): an unknown table
raises `no_table`; with conditions, any failure of the record lookup
(`except Exception`) is swallowed and the empty form is used instead; the
field list renders the record's values when one was found. -/
def query_form (known : String → Option (List String)) (db : DB)
    (table_name : String) (kwargs : List (String × String)) :
    Except Err (List FieldInfo) :=
  match known table_name with
  | none => .error (.muddery "no_table" ("Can not find table: " ++ table_name) "")
  | some cols =>
    let record : Option Values :=
      if kwargs ≠ [] then
        match get_record db table_name kwargs with
        | .ok r => some r
        | .error _ => none
      else none
    .ok (⟨"id", some (match record with
                      | some r => (getv r "id").getD ""
                      | none => "")⟩ ::
      cols.map (fun c => ⟨c, match record with
                             | some r => some ((getv r c).getD "")
                             | none => none⟩))

/-- C9 counterexample: a direct single-record query through `query_form`
whose conditions match no record does NOT surface `NotFound` — it silently
returns the empty form for the table, contradicting the claim that the
failure is surfaced to the caller. -/
theorem query_form_missing_record_cex :
    get_record [] "world_rooms" [("key", "nope")] = .error .objectDoesNotExist ∧
    query_form FORM_SET_columns [] "world_rooms" [("key", "nope")] =
      .ok [⟨"id", some ""⟩, ⟨"key", none⟩, ⟨"name", none⟩, ⟨"location", none⟩] :=
  ⟨rfl, rfl⟩

/-- C9 (amended): the per-table `NotFound` inside `delete_object`'s loop is
swallowed — a table without the key is left unchanged and the loop proceeds
— and the direct single-record lookup in `query_form` also swallows its
lookup failure, returning the empty form rather than surfacing `NotFound`. -/
theorem notfound_swallowed_on_delete_and_query
    (db : DB) (t okey : String)
    (known : String → Option (List String)) (qdb : DB) (qt : String)
    (kw : List (String × String)) (cols : List String) (e : Err)
    (hdel : delete_record_by_key db t okey = .error .objectDoesNotExist)
    (hknown : known qt = some cols) (hkw : kw ≠ [])
    (hq : get_record qdb qt kw = .error e) :
    delete_step db t okey = db ∧
    query_form known qdb qt kw =
      .ok (⟨"id", some ""⟩ :: cols.map (fun c => ⟨c, none⟩)) := by
  constructor
  · unfold delete_step
    rw [hdel]
  · unfold query_form
    rw [hknown]
    simp only [if_pos hkw, hq]

/-- Witness for C9 at a concrete input: deleting an absent key leaves the
table as it was, and an unmatched direct query yields the empty area form. -/
theorem notfound_swallowed_on_delete_and_query_witness :
    delete_record_by_key [("objects", ([] : Table))] "objects" "gone" =
      .error .objectDoesNotExist ∧
    FORM_SET_columns "world_areas" = some ["key", "name"] ∧
    (([("key", "missing")] : List (String × String)) ≠ []) ∧
    get_record [] "world_areas" [("key", "missing")] = .error .objectDoesNotExist ∧
    delete_step [("objects", ([] : Table))] "objects" "gone" = [("objects", [])] ∧
    query_form FORM_SET_columns [] "world_areas" [("key", "missing")] =
      .ok (⟨"id", some ""⟩ :: (["key", "name"].map (fun c => (⟨c, none⟩ : FieldInfo)))) :=
  ⟨rfl, rfl, by decide, rfl,
   (notfound_swallowed_on_delete_and_query [("objects", [])] "objects" "gone"
      FORM_SET_columns [] "world_areas" [("key", "missing")] ["key", "name"]
      .objectDoesNotExist rfl rfl (by decide) rfl).1,
   (notfound_swallowed_on_delete_and_query [("objects", [])] "objects" "gone"
      FORM_SET_columns [] "world_areas" [("key", "missing")] ["key", "name"]
      .objectDoesNotExist rfl rfl (by decide) rfl).2⟩

/-- Modelled from the spec: the writer registry (`muddery.utils.writers`,
code not in the source tree) — each registered writer class carries the file
type it serves. -/
structure FileWriter where
  file_type : String
deriving DecidableEq, Repr

/-- The writer-selection loop of `export_file` (exporter.py:55-60): the
first registered writer whose type equals the requested one. -/
def find_writer : List FileWriter → String → Option FileWriter
  | [], _ => none
  | w :: rest, ft => if ft = w.file_type then some w else find_writer rest ft

/-- The suffix of a character list after its last dot, if any dot occurs. -/
def after_last_dot : List Char → Option (List Char)
  | [] => none
  | c :: cs =>
    match after_last_dot cs with
    | some e => some e
    | none => if c = '.' then some cs else none

/-- `os.path.splitext(filename)[1].lower()` then dropping the dot
(exporter.py:49-53): the extension of the path's base name — leading dots of
the base name do not begin an extension — lowercased, without its dot. -/
def ext_of (filename : String) : String :=
  let base := (filename.splitOn "/").getLastD ""
  let cs := base.data
  let rest := cs.drop ((cs.takeWhile (fun c => c = '.')).length)
  match after_last_dot rest with
  | some e => String.mk (e.map Char.toLower)
  | none => ""

/-- Modelled from the spec: the model registry seen through `get_lines` —
the ordered field-name list of each model. -/
abbrev Schema := String → List String

/-- `get_lines(model_name)` (exporter.py:26-42): the header row of field
names followed by one row per record, every value string-rendered in header
order. -/
def get_lines (schema : Schema) (db : DB) (model_name : String) : List (List String) :=
  schema model_name ::
    (getT db model_name).map (fun r => (schema model_name).map (fun f => (getv r f).getD ""))

/-- Observable outcome of `export_file`: either the lines written through
the writer, or the silent skip branch (prints "Can not export file" and
returns without writing). -/
inductive ExportOutcome where
  | written (lines : List (List String))
  | skipped
deriving DecidableEq, Repr

/-- `export_file(filename, model_name, file_type)` (exporter.py:45-69): the
file type defaults to the filename's extension; without a registered writer
the function prints and returns normally — the result is `.ok` in every
case, no error reaches the caller. -/
def export_file (allWriters : List FileWriter) (schema : Schema) (db : DB)
    (filename model_name file_kind : String) : Except Err ExportOutcome :=
  let ft := if file_kind = "" then ext_of filename else file_kind
  match find_writer allWriters ft with
  | none => .ok .skipped
  | some _ => .ok (.written (get_lines schema db model_name))

/-- C5 counterexample: exporting with a format no registered writer serves
completes normally with nothing written — `export_file` returns `.ok` with
the skip outcome, so no `UnsupportedFormat` error reaches the caller,
contradicting the claim that the operation fails. -/
theorem export_file_unsupported_format_cex :
    export_file [⟨"csv"⟩] (fun _ => []) [] "world_data.xyz" "objects" "xyz" =
      .ok .skipped := rfl

/-- C5 (amended): when no registered writer serves the requested format,
`export_file` returns normally through the skip branch — nothing is
written, and no error reaches the caller (only a console message). -/
theorem export_file_unsupported_format_skips (allWriters : List FileWriter)
    (schema : Schema) (db : DB) (filename model_name file_kind : String)
    (hft : file_kind ≠ "")
    (hw : find_writer allWriters file_kind = none) :
    export_file allWriters schema db filename model_name file_kind = .ok .skipped := by
  unfold export_file
  simp only [if_neg hft, hw]

/-- Witness for C5 at a concrete input: only a csv writer is registered, so
an xls export skips. -/
theorem export_file_unsupported_format_skips_witness :
    (("xls" : String) ≠ "") ∧
    find_writer [⟨"csv"⟩] "xls" = none ∧
    export_file [⟨"csv"⟩] (fun _ => []) [] "all.xls" "objects" "xls" = .ok .skipped :=
  ⟨by decide, rfl,
   export_file_unsupported_format_skips [⟨"csv"⟩] (fun _ => []) [] "all.xls" "objects"
     "xls" (by decide) rfl⟩

/-- Behavior of one per-model iteration of `export_zip_all`'s loop, seen
through its effect on the temporary file: the iteration's `export_file`
writes the temp file, silently skips (no writer — nothing created), or
raises. -/
inductive TableExport where
  | writes
  | skips
  | raises
deriving DecidableEq, Repr

/-- The `try` body of `export_zip_all` (exporter.py:83-92) after the archive
is opened, threading whether the temp file exists on disk: after `writes`
the temp file exists and `archive.write` succeeds; after `skips` the
`archive.write` call raises unless a stale temp file from an earlier
iteration exists; `raises` aborts the loop where it stands. -/
def zip_body : List TableExport → Bool → Except String Unit × Bool
  | [], temp => (.ok (), temp)
  | .writes :: rest, _ => zip_body rest true
  | .skips :: rest, temp =>
    if temp then zip_body rest temp else (.error "archive.write: temp file missing", temp)
  | .raises :: _, temp => (.error "export_file raised", temp)

/-- `export_zip_all(file, file_type)` (exporter.py:72-94):
`tempfile.mktemp()` only reserves a name — no file exists yet; the loop runs
under `try`, and the `finally` clause executes `os.remove(temp)`, which
itself raises `FileNotFoundError` whenever the temp file was never created.
Returns the overall outcome, whether the temp file remains afterwards, and
whether the cleanup step itself raised. -/
def export_zip_all (zipOpenOk : Bool) (tables : List TableExport) :
    Except String Unit × Bool × Bool :=
  let body := if zipOpenOk then zip_body tables false
              else (.error "zipfile.ZipFile failed", false)
  if body.2 then (body.1, false, false)
  else (.error "os.remove: FileNotFoundError", false, true)

/-- C7 counterexample: when the first table's export finds no writer and
silently skips, the temp file is never created, `archive.write` raises, and
the deferred `os.remove` in `finally` itself raises `FileNotFoundError` —
the cleanup step does raise a new error on this exit path. -/
theorem export_zip_all_cleanup_cex :
    export_zip_all true [TableExport.skips] =
      (.error "os.remove: FileNotFoundError", false, true) := rfl

theorem zip_body_writes_true (ts : List TableExport)
    (h : ∀ e ∈ ts, e = TableExport.writes) : zip_body ts true = (.ok (), true) := by
  induction ts with
  | nil => rfl
  | cons e rest ih =>
    have he := h e (List.mem_cons_self e rest)
    subst he
    exact ih (fun x hx => h x (List.mem_cons_of_mem _ hx))

/-- C7 (amended): the temporary file never survives `export_zip_all`, but
the deferred cleanup is not error-free: `os.remove` raises exactly on the
exit paths on which no iteration created the temp file (archive-open
failure, a first-iteration skip or raise, or an empty model list), because
`tempfile.mktemp` only reserves a name.  On the path where the archive opens
and every table's export writes the temp file, the export completes and the
cleanup removes the file without error. -/
theorem export_zip_all_cleanup (z : Bool) (ts : List TableExport) :
    (export_zip_all z ts).2.1 = false ∧
    ((export_zip_all z ts).2.2 = true ↔
      (if z then zip_body ts false
       else (.error "zipfile.ZipFile failed", false)).2 = false) ∧
    (z = true → (∀ e ∈ ts, e = TableExport.writes) → ts ≠ [] →
      export_zip_all z ts = (.ok (), false, false)) := by
  have key : ∀ body : Except String Unit × Bool,
      (((if body.2 then (body.1, false, false)
        else (.error "os.remove: FileNotFoundError", false, true)) :
          Except String Unit × Bool × Bool).2.1 = false) ∧
      ((((if body.2 then (body.1, false, false)
        else (.error "os.remove: FileNotFoundError", false, true)) :
          Except String Unit × Bool × Bool).2.2 = true) ↔ body.2 = false) := by
    intro body
    cases hb : body.2 with
    | false => exact ⟨rfl, by simp⟩
    | true => exact ⟨rfl, by simp⟩
  refine ⟨(key _).1, (key _).2, ?_⟩
  intro hz hall hne
  subst hz
  cases ts with
  | nil => exact absurd rfl hne
  | cons e rest =>
    have he := hall e (List.mem_cons_self e rest)
    subst he
    have hr := zip_body_writes_true rest (fun x hx => hall x (List.mem_cons_of_mem _ hx))
    show (if (zip_body rest true).2 then ((zip_body rest true).1, false, false)
          else (.error "os.remove: FileNotFoundError", false, true)) = (.ok (), false, false)
    rw [hr]
    rfl

/-- Witness for C7 at a concrete input: with the archive open and two
writing table exports, the export succeeds and the cleanup neither leaks the
temp file nor raises. -/
theorem export_zip_all_cleanup_witness :
    ((true : Bool) = true) ∧
    (∀ e ∈ [TableExport.writes, TableExport.writes], e = TableExport.writes) ∧
    (([TableExport.writes, TableExport.writes] : List TableExport) ≠ []) ∧
    export_zip_all true [TableExport.writes, TableExport.writes] = (.ok (), false, false) :=
  ⟨rfl, by decide, by decide,
   (export_zip_all_cleanup true [TableExport.writes, TableExport.writes]).2.2
     rfl (by decide) (by decide)⟩

mutual
/-- A file-system tree entry: a regular file or a directory. -/
inductive FTree where
  | file (name : String) (content : String)
  | dir (name : String) (children : FTreeList)
/-- The ordered entries of one directory listing. -/
inductive FTreeList where
  | nil
  | cons (t : FTree) (rest : FTreeList)
end

/-- Character-based slice `s[n:]`, as Python slices strings. -/
def strDrop (s : String) (n : Nat) : String := String.mk (s.data.drop n)

/-- Character-based slice `s[:n]`, as Python slices strings. -/
def strTake (s : String) (n : Nat) : String := String.mk (s.data.take n)

mutual
/-- The walk of `os.walk` as `export_resources` consumes it
(exporter.py:105-112), over one entry: every regular file with its
`os.path.join(root, file)` full path, its bare name, and its content.
`dirs` is never pruned, so the walk descends into every directory, hidden
ones included. -/
def walk_tree (path : String) : FTree → List (String × String × String)
  | FTree.file n c => [(path ++ "/" ++ n, n, c)]
  | FTree.dir n ch => walk_list (path ++ "/" ++ n) ch
/-- The walk over a directory listing.  (Entries appear in traversal order
with files and subdirectories interleaved per listing; `os.walk` groups each
directory's files together, which permutes the archive order but not its
contents.) -/
def walk_list (path : String) : FTreeList → List (String × String × String)
  | FTreeList.nil => []
  | FTreeList.cons t rest => walk_tree path t ++ walk_list path rest
end

/-- The per-file step of `export_resources`: skip when the bare name starts
with a dot (`file[:1] == '.'`), otherwise archive under
`full_path[dir_length:]`. -/
def entry_to_archive (root_len : Nat) (e : String × String × String) :
    Option (String × String) :=
  if strTake e.2.1 1 = "." then none else some (strDrop e.1 root_len, e.2.2)

/-- `export_resources(file)` (exporter.py:97-112): walk the media root, skip
a file when its own name begins with a dot, and store each remaining file
under its full path with the first `len(dir_name)` characters removed,
content unchanged. -/
def export_resources (dir_name : String) (tree : FTreeList) : List (String × String) :=
  (walk_list dir_name tree).filterMap (entry_to_archive dir_name.length)

/-- C6 counterexample: a file inside a hidden directory IS archived — the
walk descends into `.git` because only bare file names are tested against
the leading dot — contradicting the claim that entries under hidden
directories are excluded from the archive. -/
theorem export_resources_hidden_dir_cex :
    export_resources "/media"
        (FTreeList.cons
          (FTree.dir ".git" (FTreeList.cons (FTree.file "config" "x") FTreeList.nil))
          FTreeList.nil) =
      [("/.git/config", "x")] := rfl

mutual
/-- Amended specification of the resource export over one entry, written
from the amended claim independently of the walk: a file is collected under
`pre ++ "/" ++ name` unless its own name begins with a dot; every directory,
hidden or not, is descended into. -/
def resource_spec_tree (pre : String) : FTree → List (String × String)
  | FTree.file n c => if strTake n 1 = "." then [] else [(pre ++ "/" ++ n, c)]
  | FTree.dir n ch => resource_spec_list (pre ++ "/" ++ n) ch
/-- Amended specification over a directory listing. -/
def resource_spec_list (pre : String) : FTreeList → List (String × String)
  | FTreeList.nil => []
  | FTreeList.cons t rest => resource_spec_tree pre t ++ resource_spec_list pre rest
end

theorem strDrop_append (a b : String) : strDrop (a ++ b) a.length = b := by
  unfold strDrop
  have h1 : (a ++ b).data = a.data ++ b.data := String.data_append a b
  have h2 : a.length = a.data.length := rfl
  rw [h1, h2, List.drop_left]

mutual
theorem walk_tree_spec (root : String) : (t : FTree) → (q : String) →
    (walk_tree (root ++ q) t).filterMap (entry_to_archive root.length) =
      resource_spec_tree q t
  | FTree.file n c, q => by
    simp only [walk_tree, resource_spec_tree, List.filterMap_cons, List.filterMap_nil,
      entry_to_archive]
    by_cases h : strTake n 1 = "."
    · simp only [if_pos h]
    · simp only [if_neg h, String.append_assoc root q "/",
        String.append_assoc root (q ++ "/") n, strDrop_append root (q ++ "/" ++ n)]
  | FTree.dir n ch, q => by
    have ih := walk_list_spec root ch (q ++ "/" ++ n)
    simp only [walk_tree, resource_spec_tree]
    rw [String.append_assoc root q "/", String.append_assoc root (q ++ "/") n]
    exact ih
theorem walk_list_spec (root : String) : (ts : FTreeList) → (q : String) →
    (walk_list (root ++ q) ts).filterMap (entry_to_archive root.length) =
      resource_spec_list q ts
  | FTreeList.nil, _ => rfl
  | FTreeList.cons t rest, q => by
    have ih1 := walk_tree_spec root t q
    have ih2 := walk_list_spec root rest q
    simp only [walk_list, resource_spec_list, List.filterMap_append]
    rw [ih1, ih2]
end

/-- C6 (amended): `export_resources` archives exactly the regular files
whose own bare name does not begin with a dot — hidden directories are still
descended into, so non-dot-named files inside them ARE archived — each entry
stored under its "/"-prefixed path relative to the walk root (the
`full_path[dir_length:]` slice), with its content unchanged; the result does
not depend on the root directory's name. -/
theorem export_resources_spec_correspondence (dir_name : String) (tree : FTreeList) :
    export_resources dir_name tree = resource_spec_list "" tree := by
  have h := walk_list_spec dir_name tree ""
  rw [String.append_empty] at h
  exact h

end Muddery
